import Mathlib

/-!
Verification development for the diversity agent of `Auto-weighter`
(`src/agents/diversity.py`, `create_llm_diversity_agent` /
`diversity_agent_node`).

The Python function is embedded shallowly:

* Values produced by `ast.literal_eval` become the inductive type `PyVal`
  (dict keys restricted to strings, which is the only kind of key the
  validator ever looks up).
* The state mapping consumed and produced by the node becomes an
  association list `State` of string keys and typed values `SVal` (the
  numpy arrays of the real state become exact rational matrices).
* The external oracle `llm` becomes a function from the invocation index
  and the conversation to raw text; `ast.literal_eval ∘ strip` becomes an
  abstract parameter `parse : String → Option PyVal` (`none` models the
  parse exception).
* A Python exception escaping the call is modelled by `Option.none`.
* Machine floats are modelled by `Rat`; the float coercion
  `np.array(values, dtype=float)` becomes `mapOpt toFloatQ` (coercion of
  numeric strings and the `None → nan` conversion, which no claim here
  exercises, are out of the modelled scope and map to `none`).
-/

/-- Structured values produced by the safe literal parser
(`ast.literal_eval`).  Dict keys are restricted to strings; the agent only
ever looks up the string keys `values` and `rationale`. -/
inductive PyVal where
  | num (q : Rat)
  | str (s : String)
  | boolv (b : Bool)
  | noneV
  | list (xs : List PyVal)
  | tuple (xs : List PyVal)
  | dict (kvs : List (String × PyVal))

/-- Python dict lookup on a key/value list: the last binding of a key wins,
as in a Python dict literal with duplicate keys. -/
def dictFind (kvs : List (String × PyVal)) (k : String) : Option PyVal :=
  match kvs with
  | [] => Option.none
  | (k2, v) :: rest =>
    match dictFind rest k with
    | some w => some w
    | Option.none => if k2 = k then some v else Option.none

/-- One element of the parsed response, as checked inside the generator
expression of `diversity.py` lines 121-126: a dict that contains both a
`values` and a `rationale` entry whose `values` entry is a list or tuple
(`np.ndarray` cannot be produced by `ast.literal_eval`) of length exactly
`n_vars`. -/
def itemOk (it : PyVal) (n_vars : Nat) : Bool :=
  match it with
  | PyVal.dict kvs =>
    (dictFind kvs "values").isSome && (dictFind kvs "rationale").isSome &&
    (match dictFind kvs "values" with
     | some (PyVal.list xs) => xs.length == n_vars
     | some (PyVal.tuple xs) => xs.length == n_vars
     | _ => false)
  | _ => false

/-- The schema check of `diversity.py` lines 118-129: the parsed value is a
Python list, every element passes `itemOk`, and the list has length exactly
`pool_size`. -/
def validResponse (v : PyVal) (pool_size n_vars : Nat) : Bool :=
  match v with
  | PyVal.list items => items.all (fun it => itemOk it n_vars) && items.length == pool_size
  | _ => false

/-- Parse of the stripped raw text followed by the schema check
(`diversity.py` lines 117-133).  `some items` is the validated list of
proposed candidates, `Option.none` is the `sets = None` outcome (parse
exception or failed validation). -/
def validatedSets (parse : String → Option PyVal) (pool_size n_vars : Nat)
    (raw : String) : Option (List PyVal) :=
  match parse raw.trim with
  | some (PyVal.list items) =>
    if validResponse (PyVal.list items) pool_size n_vars then some items else Option.none
  | _ => Option.none

/-- Float coercion of one scalar, as performed elementwise by
`np.array(item[\x27values\x27], dtype=float)` on line 152.  Numbers and
booleans coerce; coercion of numeric strings and the `None → nan`
conversion are outside the modelled scope (no claim exercises them), and
non-numeric values raise, modelled by `none`. -/
def toFloatQ (v : PyVal) : Option Rat :=
  match v with
  | PyVal.num q => some q
  | PyVal.boolv b => some (if b then 1 else 0)
  | _ => Option.none

/-- Evaluation of a list computation that can raise: `none` as soon as one
element raises, otherwise the list of results.  Models the list
comprehension on line 152. -/
def mapOpt (f : α → Option β) : List α → Option (List β)
  | [] => some []
  | a :: l =>
    match f a, mapOpt f l with
    | some b, some bl => some (b :: bl)
    | _, _ => Option.none

/-- Float coercion of one proposed candidate:
`np.array(item[\x27values\x27], dtype=float)` on line 152 (run outside the
try/except of the retry loop). -/
def coerceRow (it : PyVal) : Option (List Rat) :=
  match it with
  | PyVal.dict kvs =>
    match dictFind kvs "values" with
    | some (PyVal.list xs) => mapOpt toFloatQ xs
    | some (PyVal.tuple xs) => mapOpt toFloatQ xs
    | _ => Option.none
  | _ => Option.none

/-- A 2-d numpy array with exact rational entries. -/
abbrev QMat := List (List Rat)

/-- `shape[1]` of a (nonempty, rectangular) matrix. -/
def rowLen (m : QMat) : Nat := (m.headD []).length

/-- Rectangularity: every row has the length of the first row (an invariant
of every 2-d numpy array, which the list-of-lists representation does not
enforce by construction). -/
def isRect (m : QMat) : Bool := m.all (fun r => r.length == rowLen m)

/-- Column `j` of a matrix (meaningful for rectangular input, as for every
numpy array). -/
def colOf (m : QMat) (j : Nat) : List Rat := m.map (fun r => r.getD j 0)

/-- Population variance of a list: the mean of the squared deviations from
the mean, exactly the quantity whose square root `np.std` (with its default
`ddof=0`) returns.  `Rat` division by zero makes the empty case `0`; the
real code produces `nan` there, which no claim exercises. -/
def popVar (xs : List Rat) : Rat :=
  ((xs.map (fun x => (x - xs.sum / (xs.length : Rat)) ^ 2)).sum) / (xs.length : Rat)

/-- One entry of `np.std(all_para, axis=0)` (line 33): the square root of
the population variance of a column. -/
noncomputable def npStd (xs : List Rat) : Real := Real.sqrt ((popVar xs : Rat) : Real)

/-- The DiversityReport computed on line 33:
`param_diversity = np.std(all_para, axis=0)`, one standard deviation per
column of the history window. -/
noncomputable def diversityReport (m : QMat) : List Real :=
  (List.range (rowLen m)).map (fun j => npStd (colOf m j))

/-- The squares of the diversity scores, one per column; the computable
shadow of `diversityReport` used when rendering the context (the rendering
utility is spec-modelled, see `arr2str`, so rendering the exact squares in
place of their irrational square roots loses nothing any claim needs). -/
def stdSquares (m : QMat) : List Rat :=
  (List.range (rowLen m)).map (fun j => popVar (colOf m j))

/-- Modelled from the spec: the sample standard deviation named by the
specification of the Diversity Statistics Aggregator (the Bessel-corrected
estimator, squared deviations divided by `K - 1`), stated here only to be
compared with the code's `npStd`. -/
def sampleVar (xs : List Rat) : Rat :=
  ((xs.map (fun x => (x - xs.sum / (xs.length : Rat)) ^ 2)).sum) / ((xs.length : Rat) - 1)

/-- Modelled from the spec: the sample standard deviation itself. -/
noncomputable def sampleStd (xs : List Rat) : Real :=
  Real.sqrt ((sampleVar xs : Rat) : Real)

/-- Python slice `l[-k:]` for an arbitrary integer `k`: the last `k`
elements when `0 < k` (all of `l` when `k` exceeds the length), all of `l`
when `k = 0` (since `-0 = 0`), and `l[(-k):]` when `k < 0`. -/
def sliceFromNeg (l : List α) (k : Int) : List α :=
  if 0 < k then l.drop (l.length - k.toNat) else l.drop (-k).toNat

/-- Typed values stored in the agent state (the numpy arrays, ints and
strings that `diversity_agent_node` reads and writes). -/
inductive SVal where
  | mat (m : QMat)
  | vec (v : List Rat)
  | intv (n : Int)
  | strv (s : String)
  | strListv (xs : List String)
  | boundsv (lo hi : List Rat)
  | summaryv (ppc poc pl : QMat) (pev : List Rat)
deriving DecidableEq

/-- The state mapping: an association list of string keys (first binding
wins, as keys of a Python dict are unique). -/
abbrev State := List (String × SVal)

/-- Dictionary lookup `state[k]` / `state.get(k)`. -/
def getKey (st : State) (k : String) : Option SVal :=
  match st with
  | [] => Option.none
  | (k2, v) :: rest => if k2 = k then some v else getKey rest k

/-- Dictionary update, as performed by the `{**state, k: v}` merges on
lines 145-150 and 155-158: an existing key keeps its position with the new
value, a new key is appended. -/
def setKey (st : State) (k : String) (v : SVal) : State :=
  match st with
  | [] => [(k, v)]
  | (k2, w) :: rest => if k2 = k then (k2, v) :: rest else (k2, w) :: setKey rest k v

/-- The keys of a state. -/
def keysOf (st : State) : List String := st.map (fun p => p.1)

/-- The typed inputs `diversity_agent_node` extracts from the state on
lines 15-39: all seven keys it reads, with the documented defaults, plus
the derived `n_vars`, `n_objs` and `pool_size`.  `all_para` is already the
sliced history window `state.get("all_para", parent_pool)[-most_recent:]`. -/
structure NodeInputs where
  parent_pool : QMat
  parent_objectives : QMat
  most_recent : Int
  all_para : QMat
  n_vars : Nat
  n_objs : Nat
  bounds : Option (List Rat × List Rat)
  budget : Int
  pool_size : Nat
  ppc : QMat
  poc : QMat
  pl : QMat
  pev : List Rat
deriving DecidableEq

/-- Read a required matrix key (`state["parent_pool"]`,
`state["parent_objectives"]`): a missing key raises `KeyError`, and the
numpy invariants (rectangular, with at least one row so that `shape[1]` is
represented) are demanded of the list representation. -/
def getMatNE (v : Option SVal) : Option QMat :=
  match v with
  | some (SVal.mat m) => if isRect m && !m.isEmpty then some m else Option.none
  | _ => Option.none

/-- Read an optional integer key with a default (`state.get(k, d)`). -/
def getIntD (v : Option SVal) (d : Int) : Option Int :=
  match v with
  | Option.none => some d
  | some (SVal.intv n) => some n
  | _ => Option.none

/-- Read the optional history matrix (`state.get("all_para", parent_pool)`). -/
def getMatD (v : Option SVal) (d : QMat) : Option QMat :=
  match v with
  | Option.none => some d
  | some (SVal.mat m) => if isRect m then some m else Option.none
  | _ => Option.none

/-- Read the optional bounds pair; a present side must be nonempty since
`np.min` / `np.max` raise on an empty array (line 26). -/
def getBounds (v : Option SVal) : Option (Option (List Rat × List Rat)) :=
  match v with
  | Option.none => some Option.none
  | some (SVal.boundsv lo hi) =>
    if !lo.isEmpty && !hi.isEmpty then some (some (lo, hi)) else Option.none
  | _ => Option.none

/-- Read the required summary bundle (lines 36-39). -/
def getSummary (v : Option SVal) : Option (QMat × QMat × QMat × List Rat) :=
  match v with
  | some (SVal.summaryv ppc poc pl pev) => some (ppc, poc, pl, pev)
  | _ => Option.none

/-- The field extraction of lines 15-39.  `Option.none` models an exception
raised before the first oracle call (missing required key, ill-typed
optional key, empty bounds side). -/
def nodeInputs (st : State) : Option NodeInputs := do
  let pp ← getMatNE (getKey st "parent_pool")
  let po ← getMatNE (getKey st "parent_objectives")
  let mr ← getIntD (getKey st "most_recent") 100
  let apFull ← getMatD (getKey st "all_para") pp
  let bnd ← getBounds (getKey st "bounds")
  let bud ← getIntD (getKey st "budget") 2
  let su ← getSummary (getKey st "summary")
  pure { parent_pool := pp, parent_objectives := po, most_recent := mr,
         all_para := sliceFromNeg apFull mr,
         n_vars := rowLen pp, n_objs := rowLen po,
         bounds := bnd, budget := bud, pool_size := pp.length,
         ppc := su.1, poc := su.2.1, pl := su.2.2.1, pev := su.2.2.2 }

/-- The history window the diversity statistics are computed over, exactly
as the node selects it. -/
def historyWindow (st : State) : Option QMat :=
  (nodeInputs st).map (fun inp => inp.all_para)

/-- Fixed-precision rendering of one number (part of the spec-modelled
rendering utility): the exact rational scaled into an integer of `d`
decimal digits.  Exact-rational rendering stands in for Python float repr;
the exact numerals are immaterial to every claim proved here. -/
def fmtFixed (q : Rat) (d : Nat) : String :=
  toString (Int.floor (q * ((10 : Rat) ^ d))) ++ "e-" ++ toString d

/-- A 1-d or 2-d numpy array handed to the rendering utility. -/
inductive NArr where
  | one (v : List Rat)
  | two (m : QMat)

/-- Modelled from the spec: `arr2str` from `utils.NSGA_related` is code of
this repository that is not under `src/`.  The spec describes it only as a
deterministic renderer of numeric arrays at a fixed decimal precision,
truncated to a bounded maximum number of rows with the truncation stated in
the output. -/
def arr2str (a : NArr) (decimals : Nat) (max_rows : Nat) : String :=
  match a with
  | NArr.one v =>
    "[" ++ String.intercalate ", " (v.map (fun q => fmtFixed q decimals)) ++ "]"
  | NArr.two m =>
    "[" ++ String.intercalate "\n " ((m.take max_rows).map (fun r =>
      "[" ++ String.intercalate ", " (r.map (fun q => fmtFixed q decimals)) ++ "]")) ++ "]"
    ++ (if max_rows < m.length then
          "\n... (" ++ toString max_rows ++ " of " ++ toString m.length ++ " rows shown)"
        else "")

/-- `float(np.min(lower))` over the modelled bounds side. -/
def listMin (l : List Rat) : Rat := l.foldl min (l.headD 0)

/-- `float(np.max(upper))` over the modelled bounds side. -/
def listMax (l : List Rat) : Rat := l.foldl max (l.headD 0)

/-- The bounds text of lines 24-28: `"[min, max]"` when bounds are present,
the default `"[0, 1]"` otherwise. -/
def boundsStr (b : Option (List Rat × List Rat)) : String :=
  match b with
  | Option.none => "[0, 1]"
  | some (lo, hi) => "[" ++ toString (listMin lo) ++ ", " ++ toString (listMax hi) ++ "]"

/-- The system prompt assembled on lines 42-78 (the Instruction). -/
def mkSystemMessage (inp : NodeInputs) : String :=
  "System: You are a diversity agent for a multi-objective evolutionary algorithm.\n\n"
  ++ "Your task:\n"
  ++ "- make edits to the current sets in the pool that increase exploration while respecting bounds.\n"
  ++ "- Focus on spreading values in parameters with low diversity and stabilizing those with very high diversity.\n"
  ++ "- Avoid collapsing parameters to extremes (0 or max).\n\n"
  ++ "Problem summary:\n"
  ++ "- Each candidate has " ++ toString inp.n_vars ++ " parameters (σ_k per dataset).\n"
  ++ "- Each solution yields " ++ toString inp.n_objs ++ " objectives (RMS errors e_k, lower is better).\n\n"
  ++ "Provided data you can use:\n"
  ++ "1) Full parent pool and objectives (current generation).\n"
  ++ "2) The statistics for the most recent " ++ toString inp.most_recent ++ " sets.\n"
  ++ "   • Diversity scores per parameter computed from ALL candidates.\n"
  ++ "   • Array of length n_vars (index i → σ_i).\n"
  ++ "   • Each score measures spread of σ values across the full pool.\n"
  ++ "   • Low score = values clustered → encourage exploration.\n"
  ++ "   • High score = values spread → encourage refinement/stabilization.\n"
  ++ "   • Use these scores to decide which σ to perturb and by how much.\n"
  ++ "3) Parameter–parameter correlation (matrix) of the entire history pool.\n"
  ++ "   • Positive correlation: σ_i and σ_j move together.\n"
  ++ "   • Negative correlation: σ_i and σ_j trade off.\n"
  ++ "   • Use to design consistent edits across correlated parameters.\n"
  ++ "4) Parameter–objective correlation of the entire history pool.\n"
  ++ "   • How each σ dimension influences each objective.\n"
  ++ "5) PCA loadings + explained variance.\n"
  ++ "   • Use early PCs (high variance) to guide exploration directions.\n"
  ++ "6) Bounds reminder: all σ must remain inside " ++ boundsStr inp.bounds ++ ".\n"
  ++ "7) Edit budget: at most " ++ toString inp.budget ++ " parameters may be shifted in each new set.\n\n"
  ++ "**Guidelines:**\n"
  ++ "- Inject diversity by perturbing clustered parameters\n"
  ++ "- Spread out solutions across unexplored parameter space.\n"
  ++ "- Prioritize exploration over exploitation.\n\n"
  ++ "Output format (STRICT):\n"
  ++ "- Return a valid Python list of " ++ toString inp.pool_size ++ " dicts.\n"
  ++ "- Each dict must have \x27values\x27 (a list of " ++ toString inp.n_vars
  ++ " floats) and \x27rationale\x27 (short text).\n"
  ++ "- The FIRST LINE of your reply must be ONLY that Python list—no extra text."

/-- The user message assembled on lines 81-104 (the Context).  The calls of
the spec-modelled `arr2str` that rely on its (unknown) defaults are given
the same explicit precision and row bound as the explicit calls; the
diversity scores, irrational in general, are rendered through their exact
squares `stdSquares` — deterministic functions of the same data, which is
all any claim about this text needs. -/
def mkUserMsg (inp : NodeInputs) : String :=
  "\n==== Indexing & Semantics ====\n"
  ++ "• Parameters: 0.." ++ toString (inp.n_vars - 1) ++ " (σ_k per dataset).\n"
  ++ "• Objectives: 0.." ++ toString (inp.n_objs - 1) ++ " (RMS error, lower = better).\n\n"
  ++ "==== Current Parent Pool (parameters) ====\n"
  ++ arr2str (NArr.two inp.parent_pool) 3 20
  ++ "\n\n==== Current Parent Objectives ====\n"
  ++ arr2str (NArr.two inp.parent_objectives) 3 20
  ++ "\n\n==== Global Diversity per Parameter (from most recent candidates) ====\n"
  ++ arr2str (NArr.one (stdSquares inp.all_para)) 3 20
  ++ "\n\n==== Param–Param Correlation ====\n"
  ++ arr2str (NArr.two inp.ppc) 3 20
  ++ "\n\n==== Param–Objective Correlation ====\n"
  ++ arr2str (NArr.two inp.poc) 3 20
  ++ "\n\n==== PCA Loadings + Explained Variance ====\n"
  ++ arr2str (NArr.two inp.pl) 3 20 ++ "\n"
  ++ arr2str (NArr.one inp.pev) 3 20
  ++ "\n\nInstructions:\n"
  ++ "- Expand diversity in globally clustered parameters.\n"
  ++ "- Stabilize extreme variation in globally high-diversity parameters.\n"
  ++ "- Keep all σ inside bounds.\n"
  ++ "- Adjust at most " ++ toString inp.budget ++ " parameters per set.\n"
  ++ "- Output must cover all pool size (each dict corresponds to one candidate).\n"

/-- The corrective warning appended to the system message after an invalid
response (lines 136-140). -/
def mkWarning (pool_size n_vars : Nat) : String :=
  "\nWARNING: Your previous output was NOT a valid Python list of "
  ++ toString pool_size ++ " dicts with \x27values\x27 (length "
  ++ toString n_vars ++ ") and \x27rationale\x27. "
  ++ "The first line must be ONLY that Python list. Try again."

/-- One oracle invocation as observed at the adapter boundary: the system
message sent, the user message sent, and the raw text returned. -/
structure Attempt where
  sys : String
  user : String
  raw : String

/-- A default attempt, used as the `getD` fallback in statements that index
into the invocation trace. -/
def defAttempt : Attempt := { sys := "", user := "", raw := "" }

/-- What the retry loop of lines 107-141 produces: the validated sets (or
`none` on exhaustion), the final `report_raw`, and the trace of oracle
invocations in order. -/
structure RetryResult where
  sets : Option (List PyVal)
  report : String
  attempts : List Attempt

/-- The retry loop of lines 107-141, by recursion on the remaining
attempts (`fuel = max_retries - tries`; the loop guard is
`sets is None and tries < max_retries`).  Each iteration sends the current
system message and the fixed user message, stores the raw response in
`report_raw`, parses and validates it, and on failure appends the warning
to the system message before retrying. -/
def retryLoop (llm : Nat → List (String × String) → String)
    (parse : String → Option PyVal) (pool_size n_vars : Nat)
    (user_msg warning : String) :
    Nat → Nat → String → String → RetryResult
  | 0, _tries, _sys, report => { sets := Option.none, report := report, attempts := [] }
  | fuel + 1, tries, sys, _report =>
    let result := llm tries [("system", sys), ("user", user_msg)]
    match validatedSets parse pool_size n_vars result with
    | some items =>
      { sets := some items, report := result,
        attempts := [{ sys := sys, user := user_msg, raw := result }] }
    | Option.none =>
      let r := retryLoop llm parse pool_size n_vars user_msg warning
        fuel (tries + 1) (sys ++ warning) result
      { sets := r.sets, report := r.report,
        attempts := { sys := sys, user := user_msg, raw := result } :: r.attempts }

/-- The retry loop as entered by the node: attempt counter 0, the assembled
system and user messages, `report_raw = ""`. -/
def theLoop (llm : Nat → List (String × String) → String)
    (parse : String → Option PyVal) (max_retries : Nat) (inp : NodeInputs) :
    RetryResult :=
  retryLoop llm parse inp.pool_size inp.n_vars (mkUserMsg inp)
    (mkWarning inp.pool_size inp.n_vars) max_retries 0 (mkSystemMessage inp) ""

/-- The fallback state of lines 145-150: the input state merged with the
unmodified parent pool, an empty rationale list and the last raw response. -/
def failState (st : State) (parent_pool : QMat) (report : String) : State :=
  setKey (setKey (setKey st "diverse_pool" (SVal.mat parent_pool))
    "rationales" (SVal.strListv [])) "diversity_report_raw" (SVal.strv report)

/-- Everything one call of the node produces: the returned state (`none`
when an exception escapes, which happens exactly when the float coercion on
line 152 raises), the oracle invocation trace, and the validated sets
(`some` on the success path). -/
structure NodeOutcome where
  out : Option State
  attempts : List Attempt
  sets : Option (List PyVal)

/-- `diversity_agent_node` instrumented with its oracle-invocation trace.
The outer `Option` is an exception raised before the first oracle call
(missing or ill-typed state key); an exception raised after the loop (float
coercion, line 152) is `out = none` inside the outcome. -/
def nodeRun (llm : Nat → List (String × String) → String)
    (parse : String → Option PyVal) (max_retries : Nat) (st : State) :
    Option NodeOutcome :=
  match nodeInputs st with
  | Option.none => Option.none
  | some inp =>
    let r := theLoop llm parse max_retries inp
    match r.sets with
    | Option.none =>
      some { out := some (failState st inp.parent_pool r.report),
             attempts := r.attempts, sets := Option.none }
    | some items =>
      match mapOpt coerceRow items with
      | Option.none => some { out := Option.none, attempts := r.attempts, sets := some items }
      | some pool =>
        some { out := some (setKey st "diverse_pool" (SVal.mat pool)),
               attempts := r.attempts, sets := some items }

/-- The node itself: the state it returns, `none` when the call raises. -/
def diversity_agent_node (llm : Nat → List (String × String) → String)
    (parse : String → Option PyVal) (max_retries : Nat) (st : State) :
    Option State :=
  (nodeRun llm parse max_retries st).bind (fun o => o.out)

/-- The shape requirement on a parsed response in the words of the spec
(amended as claim C4's counterexample forces): a Python list of exactly
`pool_size` dicts, each containing a `rationale` entry and a `values` entry
that is a list or tuple of length exactly `n_vars`.  Stated as a
proposition to be compared with the code's `validResponse`. -/
def ValidShape (v : PyVal) (pool_size n_vars : Nat) : Prop :=
  ∃ items, v = PyVal.list items ∧ items.length = pool_size ∧
    ∀ it ∈ items, ∃ kvs, it = PyVal.dict kvs ∧
      (dictFind kvs "rationale").isSome = true ∧
      ((∃ xs, dictFind kvs "values" = some (PyVal.list xs) ∧ xs.length = n_vars)
       ∨ (∃ xs, dictFind kvs "values" = some (PyVal.tuple xs) ∧ xs.length = n_vars))

/-! ### Concrete fixtures for witnesses and counterexamples -/

/-- An oracle stub returning a fixed raw text. -/
def llmConst : Nat → List (String × String) → String := fun _ _ => "resp"

/-- A parse stub on which every response fails to parse. -/
def parseNone : String → Option PyVal := fun _ => Option.none

/-- A well-formed proposed candidate for a 1-variable problem. -/
def itemGood : PyVal :=
  PyVal.dict [("values", PyVal.list [PyVal.num 3]), ("rationale", PyVal.str "r")]

/-- A parse stub on which every response parses to one good candidate. -/
def parseGood : String → Option PyVal := fun _ => some (PyVal.list [itemGood])

/-- A candidate whose `values` entry has the right arity but holds a
non-numeric string: it passes the schema check and then makes the float
coercion of line 152 raise. -/
def itemAbc : PyVal :=
  PyVal.dict [("values", PyVal.list [PyVal.str "abc"]), ("rationale", PyVal.str "r")]

/-- A parse stub on which every response parses to the `itemAbc` list. -/
def parseAbc : String → Option PyVal := fun _ => some (PyVal.list [itemAbc])

/-- A two-variable candidate with non-numeric `values` entries, for the C4
counterexample. -/
def itemNC : PyVal :=
  PyVal.dict [("values", PyVal.list [PyVal.str "abc", PyVal.str "x"]),
    ("rationale", PyVal.str "r")]

/-- A minimal summary bundle. -/
def cSummary : SVal := SVal.summaryv [[0]] [[0]] [[0]] [0]

/-- A minimal well-formed input state: one candidate, one parameter, one
objective. -/
def cStBase : State :=
  [("parent_pool", SVal.mat [[1]]), ("parent_objectives", SVal.mat [[2]]),
   ("summary", cSummary)]

/-- The extracted inputs of `cStBase`. -/
def cInpBase : NodeInputs :=
  { parent_pool := [[1]], parent_objectives := [[2]], most_recent := 100,
    all_para := [[1]], n_vars := 1, n_objs := 1, bounds := Option.none,
    budget := 2, pool_size := 1, ppc := [[0]], poc := [[0]], pl := [[0]],
    pev := [0] }

/-- A state with `most_recent = 0` and a two-row history, for claim C10. -/
def cSt10 : State :=
  cStBase ++ [("most_recent", SVal.intv 0), ("all_para", SVal.mat [[3], [4]])]

/-- A state with `most_recent = 1` and the history `[[0], [2]]`, for claim
C8's witness. -/
def cSt8 : State :=
  cStBase ++ [("most_recent", SVal.intv 1), ("all_para", SVal.mat [[0], [2]])]

/-- The extracted inputs of `cSt8` (window = last row of the history). -/
def cInp8 : NodeInputs :=
  { parent_pool := [[1]], parent_objectives := [[2]], most_recent := 1,
    all_para := [[2]], n_vars := 1, n_objs := 1, bounds := Option.none,
    budget := 2, pool_size := 1, ppc := [[0]], poc := [[0]], pl := [[0]],
    pev := [0] }

/-- A state that already carries a `diverse_pool` key, for claim C9's
counterexample. -/
def cSt9 : State := cStBase ++ [("diverse_pool", SVal.mat [[5]])]

/-- A state carrying an untouched extra key (`budget`), for claim C9's
witness. -/
def cSt9w : State := cStBase ++ [("budget", SVal.intv 7)]

/-! ### Helper lemmas -/

theorem getKey_setKey_same (st : State) (k : String) (v : SVal) :
    getKey (setKey st k v) k = some v := by
  induction st with
  | nil => simp [setKey, getKey]
  | cons p rest ih =>
    obtain ⟨k2, w⟩ := p
    by_cases h : k2 = k
    · simp [setKey, getKey, h]
    · simp [setKey, getKey, h, ih]

theorem getKey_setKey_ne (st : State) (k k2 : String) (v : SVal) (h : k2 ≠ k) :
    getKey (setKey st k v) k2 = getKey st k2 := by
  induction st with
  | nil => simp [setKey, getKey, Ne.symm h]
  | cons p rest ih =>
    obtain ⟨k3, w⟩ := p
    by_cases h3 : k3 = k
    · subst h3
      simp [setKey, getKey, Ne.symm h]
    · simp [setKey, getKey, h3, ih]

theorem keysOf_nil : keysOf [] = [] := rfl

theorem keysOf_cons (k : String) (v : SVal) (st : State) :
    keysOf ((k, v) :: st) = k :: keysOf st := rfl

theorem keysOf_setKey (st : State) (k k2 : String) (v : SVal)
    (h : k2 ∈ keysOf (setKey st k v)) : k2 ∈ keysOf st ∨ k2 = k := by
  induction st with
  | nil =>
    simp only [setKey, keysOf_cons, keysOf_nil, List.mem_cons, List.not_mem_nil,
      or_false] at h
    exact Or.inr h
  | cons p rest ih =>
    obtain ⟨k3, w⟩ := p
    by_cases h3 : k3 = k
    · subst h3
      simp only [setKey, eq_self_iff_true, if_true, keysOf_cons, List.mem_cons] at h ⊢
      tauto
    · simp only [setKey, if_neg h3, keysOf_cons, List.mem_cons] at h ⊢
      rcases h with h | h
      · exact Or.inl (Or.inl h)
      · rcases ih h with h2 | h2
        · exact Or.inl (Or.inr h2)
        · exact Or.inr h2

theorem mapOpt_length (f : α → Option β) (l : List α) (r : List β)
    (h : mapOpt f l = some r) : r.length = l.length := by
  induction l generalizing r with
  | nil => simp [mapOpt] at h; simp [← h]
  | cons a t ih =>
    simp only [mapOpt] at h
    cases hfa : f a with
    | none => rw [hfa] at h; simp at h
    | some b =>
      rw [hfa] at h
      cases hmt : mapOpt f t with
      | none => rw [hmt] at h; simp at h
      | some bt =>
        rw [hmt] at h
        simp at h
        subst h
        simp [ih bt hmt]

theorem mapOpt_getD (f : α → Option β) (l : List α) (r : List β)
    (h : mapOpt f l = some r) (d : α) (d2 : β) :
    ∀ i, i < l.length → f (l.getD i d) = some (r.getD i d2) := by
  induction l generalizing r with
  | nil => intro i hi; simp at hi
  | cons a t ih =>
    simp only [mapOpt] at h
    cases hfa : f a with
    | none => rw [hfa] at h; simp at h
    | some b =>
      rw [hfa] at h
      cases hmt : mapOpt f t with
      | none => rw [hmt] at h; simp at h
      | some bt =>
        rw [hmt] at h
        simp at h
        subst h
        intro i hi
        cases i with
        | zero => simpa using hfa
        | succ j =>
          simp only [List.getD_cons_succ]
          exact ih bt hmt j (by simpa using hi)

theorem mapOpt_mem (f : α → Option β) (l : List α) (r : List β)
    (h : mapOpt f l = some r) (b : β) (hb : b ∈ r) : ∃ a ∈ l, f a = some b := by
  induction l generalizing r with
  | nil => simp [mapOpt] at h; subst h; simp at hb
  | cons a t ih =>
    simp only [mapOpt] at h
    cases hfa : f a with
    | none => rw [hfa] at h; simp at h
    | some b2 =>
      rw [hfa] at h
      cases hmt : mapOpt f t with
      | none => rw [hmt] at h; simp at h
      | some bt =>
        rw [hmt] at h
        simp at h
        subst h
        rcases List.mem_cons.mp hb with hbe | hbt
        · exact ⟨a, List.mem_cons_self a t, by rw [hbe]; exact hfa⟩
        · obtain ⟨a2, ha2, hfa2⟩ := ih bt hmt hbt
          exact ⟨a2, List.mem_cons_of_mem a ha2, hfa2⟩

theorem retryLoop_attempts_le (llm : Nat → List (String × String) → String)
    (parse : String → Option PyVal) (ps nv : Nat) (user warn : String) :
    ∀ fuel tries sys rep,
      (retryLoop llm parse ps nv user warn fuel tries sys rep).attempts.length ≤ fuel := by
  intro fuel
  induction fuel with
  | zero => intro tries sys rep; simp [retryLoop]
  | succ f ih =>
    intro tries sys rep
    simp only [retryLoop]
    cases hv : validatedSets parse ps nv (llm tries [("system", sys), ("user", user)]) with
    | some items => simp
    | none =>
      simp only [List.length_cons]
      exact Nat.succ_le_succ (ih (tries + 1) (sys ++ warn) _)

theorem retryLoop_attempts_pos (llm : Nat → List (String × String) → String)
    (parse : String → Option PyVal) (ps nv : Nat) (user warn : String)
    (fuel tries : Nat) (sys rep : String) (h : 1 ≤ fuel) :
    1 ≤ (retryLoop llm parse ps nv user warn fuel tries sys rep).attempts.length := by
  cases fuel with
  | zero => omega
  | succ f =>
    simp only [retryLoop]
    cases hv : validatedSets parse ps nv (llm tries [("system", sys), ("user", user)]) with
    | some items => simp
    | none => simp

theorem retryLoop_user_eq (llm : Nat → List (String × String) → String)
    (parse : String → Option PyVal) (ps nv : Nat) (user warn : String) :
    ∀ fuel tries sys rep a,
      a ∈ (retryLoop llm parse ps nv user warn fuel tries sys rep).attempts →
      a.user = user := by
  intro fuel
  induction fuel with
  | zero => intro tries sys rep a ha; simp [retryLoop] at ha
  | succ f ih =>
    intro tries sys rep a ha
    simp only [retryLoop] at ha
    cases hv : validatedSets parse ps nv (llm tries [("system", sys), ("user", user)]) with
    | some items =>
      rw [hv] at ha
      simp at ha
      simp [ha]
    | none =>
      rw [hv] at ha
      simp only [List.mem_cons] at ha
      rcases ha with ha | ha
      · simp [ha]
      · exact ih (tries + 1) (sys ++ warn) _ a ha

theorem retryLoop_sys_head (llm : Nat → List (String × String) → String)
    (parse : String → Option PyVal) (ps nv : Nat) (user warn : String)
    (fuel tries : Nat) (sys rep : String)
    (h : 0 < (retryLoop llm parse ps nv user warn fuel tries sys rep).attempts.length) :
    ((retryLoop llm parse ps nv user warn fuel tries sys rep).attempts.getD 0 defAttempt).sys
      = sys := by
  cases fuel with
  | zero => simp [retryLoop] at h
  | succ f =>
    simp only [retryLoop] at h ⊢
    cases hv : validatedSets parse ps nv (llm tries [("system", sys), ("user", user)]) with
    | some items => simp
    | none => simp

theorem retryLoop_sys_step (llm : Nat → List (String × String) → String)
    (parse : String → Option PyVal) (ps nv : Nat) (user warn : String) :
    ∀ fuel tries sys rep i,
      i + 1 < (retryLoop llm parse ps nv user warn fuel tries sys rep).attempts.length →
      ((retryLoop llm parse ps nv user warn fuel tries sys rep).attempts.getD (i + 1)
          defAttempt).sys
        = ((retryLoop llm parse ps nv user warn fuel tries sys rep).attempts.getD i
            defAttempt).sys ++ warn := by
  intro fuel
  induction fuel with
  | zero => intro tries sys rep i hi; simp [retryLoop] at hi
  | succ f ih =>
    intro tries sys rep i hi
    simp only [retryLoop] at hi ⊢
    cases hv : validatedSets parse ps nv (llm tries [("system", sys), ("user", user)]) with
    | some items => rw [hv] at hi; simp at hi
    | none =>
      rw [hv] at hi
      simp only [List.length_cons] at hi
      cases i with
      | zero =>
        simp only [List.getD_cons_succ, List.getD_cons_zero]
        have hpos : 0 <
            (retryLoop llm parse ps nv user warn f (tries + 1) (sys ++ warn)
              (llm tries [("system", sys), ("user", user)])).attempts.length := by
          omega
        rw [retryLoop_sys_head llm parse ps nv user warn f (tries + 1) (sys ++ warn) _ hpos]
      | succ j =>
        simp only [List.getD_cons_succ]
        exact ih (tries + 1) (sys ++ warn) _ j (by omega)

theorem retryLoop_allInvalid (llm : Nat → List (String × String) → String)
    (parse : String → Option PyVal) (ps nv : Nat) (user warn : String)
    (hbad : ∀ i msgs, validatedSets parse ps nv (llm i msgs) = Option.none) :
    ∀ fuel tries sys rep,
      (retryLoop llm parse ps nv user warn fuel tries sys rep).sets = Option.none
      ∧ (retryLoop llm parse ps nv user warn fuel tries sys rep).attempts.length = fuel
      ∧ (∀ a, (retryLoop llm parse ps nv user warn fuel tries sys rep).attempts.getLast?
            = some a →
          (retryLoop llm parse ps nv user warn fuel tries sys rep).report = a.raw)
      ∧ (fuel = 0 → (retryLoop llm parse ps nv user warn fuel tries sys rep).report = rep) := by
  intro fuel
  induction fuel with
  | zero =>
    intro tries sys rep
    refine ⟨rfl, rfl, ?_, fun _ => rfl⟩
    intro a ha
    simp [retryLoop] at ha
  | succ f ih =>
    intro tries sys rep
    simp only [retryLoop, hbad]
    obtain ⟨ih1, ih2, ih3, ih4⟩ :=
      ih (tries + 1) (sys ++ warn) (llm tries [("system", sys), ("user", user)])
    refine ⟨ih1, by simp [ih2], ?_, by omega⟩
    intro a ha
    cases hrest : (retryLoop llm parse ps nv user warn f (tries + 1) (sys ++ warn)
        (llm tries [("system", sys), ("user", user)])).attempts with
    | nil =>
      have hf : f = 0 := by rw [← ih2, hrest]; rfl
      rw [hrest] at ha
      simp only [List.getLast?_singleton, Option.some_inj] at ha
      rw [ih4 hf, ← ha]
    | cons b t =>
      rw [hrest] at ha
      rw [List.getLast?_cons_cons] at ha
      have hlast : (retryLoop llm parse ps nv user warn f (tries + 1) (sys ++ warn)
          (llm tries [("system", sys), ("user", user)])).attempts.getLast? = some a := by
        rw [hrest]; exact ha
      exact ih3 a hlast

theorem validatedSets_spec (parse : String → Option PyVal) (ps nv : Nat) (raw : String)
    (items : List PyVal) (h : validatedSets parse ps nv raw = some items) :
    items.length = ps ∧ ∀ it ∈ items, itemOk it nv = true := by
  unfold validatedSets at h
  cases hp : parse raw.trim with
  | none => rw [hp] at h; simp at h
  | some v =>
    rw [hp] at h
    cases v with
    | list items2 =>
      by_cases hvr : validResponse (PyVal.list items2) ps nv = true
      · simp only [hvr, if_true] at h
        simp at h
        subst h
        simp only [validResponse, Bool.and_eq_true, List.all_eq_true, beq_iff_eq] at hvr
        exact ⟨hvr.2, fun it hit => hvr.1 it hit⟩
      · simp only [hvr, if_false, Bool.false_eq_true] at h
        simp [hvr] at h
    | num q => simp at h
    | str s => simp at h
    | boolv b => simp at h
    | noneV => simp at h
    | tuple xs => simp at h
    | dict kvs => simp at h

theorem coerceRow_len (it : PyVal) (nv : Nat) (r : List Rat)
    (hok : itemOk it nv = true) (hc : coerceRow it = some r) : r.length = nv := by
  cases it with
  | dict kvs =>
    simp only [itemOk, Bool.and_eq_true] at hok
    obtain ⟨⟨hval, hrat⟩, hshape⟩ := hok
    simp only [coerceRow] at hc
    cases hfind : dictFind kvs "values" with
    | none => rw [hfind] at hshape; simp at hshape
    | some v =>
      rw [hfind] at hshape hc
      cases v with
      | list xs =>
        simp only [beq_iff_eq] at hshape
        rw [mapOpt_length toFloatQ xs r hc]
        exact hshape
      | tuple xs =>
        simp only [beq_iff_eq] at hshape
        rw [mapOpt_length toFloatQ xs r hc]
        exact hshape
      | num q => simp at hshape
      | str s => simp at hshape
      | boolv b => simp at hshape
      | noneV => simp at hshape
      | dict kvs2 => simp at hshape
  | num q => simp [itemOk] at hok
  | str s => simp [itemOk] at hok
  | boolv b => simp [itemOk] at hok
  | noneV => simp [itemOk] at hok
  | list xs => simp [itemOk] at hok
  | tuple xs => simp [itemOk] at hok

theorem nodeInputs_spec (st : State) (inp : NodeInputs) (h : nodeInputs st = some inp) :
    ∃ pp po mr apFull bnd bud su,
      getMatNE (getKey st "parent_pool") = some pp ∧
      getMatNE (getKey st "parent_objectives") = some po ∧
      getIntD (getKey st "most_recent") 100 = some mr ∧
      getMatD (getKey st "all_para") pp = some apFull ∧
      getBounds (getKey st "bounds") = some bnd ∧
      getIntD (getKey st "budget") 2 = some bud ∧
      getSummary (getKey st "summary") = some su ∧
      inp = { parent_pool := pp, parent_objectives := po, most_recent := mr,
              all_para := sliceFromNeg apFull mr, n_vars := rowLen pp,
              n_objs := rowLen po, bounds := bnd, budget := bud,
              pool_size := pp.length, ppc := su.1, poc := su.2.1,
              pl := su.2.2.1, pev := su.2.2.2 } := by
  simp only [nodeInputs, bind, Option.bind_eq_some, Option.pure_def,
    Option.some_inj] at h
  obtain ⟨pp, hpp, po, hpo, mr, hmr, apFull, hap, bnd, hbnd, bud, hbud, su, hsu, hmk⟩ := h
  exact ⟨pp, po, mr, apFull, bnd, bud, su, hpp, hpo, hmr, hap, hbnd, hbud, hsu, hmk.symm⟩

theorem nodeRun_cases (llm : Nat → List (String × String) → String)
    (parse : String → Option PyVal) (mr : Nat) (st : State) (inp : NodeInputs)
    (o : NodeOutcome) (hin : nodeInputs st = some inp)
    (ho : nodeRun llm parse mr st = some o) :
    o.attempts = (theLoop llm parse mr inp).attempts
    ∧ o.sets = (theLoop llm parse mr inp).sets
    ∧ ((theLoop llm parse mr inp).sets = Option.none →
        o.out = some (failState st inp.parent_pool (theLoop llm parse mr inp).report))
    ∧ ∀ items, (theLoop llm parse mr inp).sets = some items →
        (mapOpt coerceRow items = Option.none → o.out = Option.none)
        ∧ ∀ pool, mapOpt coerceRow items = some pool →
            o.out = some (setKey st "diverse_pool" (SVal.mat pool)) := by
  cases hs : (theLoop llm parse mr inp).sets with
  | none =>
    simp only [nodeRun, hin, hs, Option.some_inj] at ho
    subst ho
    refine ⟨rfl, rfl, fun _ => rfl, ?_⟩
    intro items hitems
    simp at hitems
  | some items =>
    cases hc : mapOpt coerceRow items with
    | none =>
      simp only [nodeRun, hin, hs, hc, Option.some_inj] at ho
      subst ho
      refine ⟨rfl, rfl, ?_, ?_⟩
      · intro h; simp at h
      · intro items1 hitems1
        simp only [Option.some_inj] at hitems1
        subst hitems1
        refine ⟨fun _ => rfl, ?_⟩
        intro pool hpool
        rw [hpool] at hc
        simp at hc
    | some pool =>
      simp only [nodeRun, hin, hs, hc, Option.some_inj] at ho
      subst ho
      refine ⟨rfl, rfl, ?_, ?_⟩
      · intro h; simp at h
      · intro items1 hitems1
        simp only [Option.some_inj] at hitems1
        subst hitems1
        refine ⟨?_, ?_⟩
        · intro hnone; rw [hnone] at hc; simp at hc
        · intro pool2 hpool2
          rw [hpool2] at hc
          simp only [Option.some_inj] at hc
          subst hc
          rfl

theorem nodeInputs_cStBase : nodeInputs cStBase = some cInpBase := by decide

theorem nodeInputs_cSt8 : nodeInputs cSt8 = some cInp8 := by decide

/-! ### Claim theorems -/

/-- C10: when the input state sets `most_recent = 0`, the history window
used for the diversity statistics is the entire supplied history `all_para`
(the slice `[-0:]` of the last zero rows selects everything), not an empty
window. -/
theorem C10_zero_window_full (st : State) (inp : NodeInputs) (A : QMat)
    (hin : nodeInputs st = some inp)
    (hmr : getKey st "most_recent" = some (SVal.intv 0))
    (hap : getKey st "all_para" = some (SVal.mat A)) :
    historyWindow st = some A := by
  obtain ⟨pp, po, mr, apFull, bnd, bud, su, hpp, hpo, hmr2, hap2, hbnd, hbud, hsu, heq⟩ :=
    nodeInputs_spec st inp hin
  rw [hmr] at hmr2
  simp only [getIntD, Option.some_inj] at hmr2
  subst hmr2
  rw [hap] at hap2
  simp only [getMatD] at hap2
  cases hrect : isRect A with
  | false => rw [hrect] at hap2; simp at hap2
  | true =>
    rw [hrect] at hap2
    simp only [if_true, Option.some_inj] at hap2
    subst hap2
    rw [historyWindow, hin]
    simp only [Option.map_some']
    rw [heq]
    simp [sliceFromNeg]

/-- Witness for C10 at a concrete state with a two-row history. -/
theorem C10_witness : historyWindow cSt10 = some [[3], [4]] := by
  cases hin : nodeInputs cSt10 with
  | none => exact absurd hin (by decide)
  | some inp =>
    exact C10_zero_window_full cSt10 inp [[3], [4]] hin (by decide) (by decide)

/-- C3: on any well-formed state and for any oracle behavior, one call of
the node performs between 1 and `max_retries` oracle invocations
(`max_retries ≥ 1`): the loop runs at least once and the trace never
exceeds `max_retries`. -/
theorem C3_bounded_invocations (llm : Nat → List (String × String) → String)
    (parse : String → Option PyVal) (mr : Nat) (st : State) (inp : NodeInputs)
    (hin : nodeInputs st = some inp) (hmr : 1 ≤ mr) :
    ∃ o, nodeRun llm parse mr st = some o
      ∧ 1 ≤ o.attempts.length ∧ o.attempts.length ≤ mr := by
  have h1 : 1 ≤ (theLoop llm parse mr inp).attempts.length := by
    unfold theLoop
    exact retryLoop_attempts_pos llm parse inp.pool_size inp.n_vars (mkUserMsg inp)
      (mkWarning inp.pool_size inp.n_vars) mr 0 (mkSystemMessage inp) "" hmr
  have h2 : (theLoop llm parse mr inp).attempts.length ≤ mr := by
    unfold theLoop
    exact retryLoop_attempts_le llm parse inp.pool_size inp.n_vars (mkUserMsg inp)
      (mkWarning inp.pool_size inp.n_vars) mr 0 (mkSystemMessage inp) ""
  cases hs : (theLoop llm parse mr inp).sets with
  | none =>
    refine ⟨{ out := some (failState st inp.parent_pool (theLoop llm parse mr inp).report),
              attempts := (theLoop llm parse mr inp).attempts, sets := Option.none },
      ?_, h1, h2⟩
    simp [nodeRun, hin, hs]
  | some items =>
    cases hc : mapOpt coerceRow items with
    | none =>
      refine ⟨{ out := Option.none, attempts := (theLoop llm parse mr inp).attempts,
                sets := some items }, ?_, h1, h2⟩
      simp [nodeRun, hin, hs, hc]
    | some pool =>
      refine ⟨{ out := some (setKey st "diverse_pool" (SVal.mat pool)),
                attempts := (theLoop llm parse mr inp).attempts, sets := some items },
        ?_, h1, h2⟩
      simp [nodeRun, hin, hs, hc]

/-- Witness for C3: an always-unparsable oracle with `max_retries = 2`. -/
theorem C3_witness :
    (nodeRun llmConst parseNone 2 cStBase).map
      (fun o => decide (1 ≤ o.attempts.length ∧ o.attempts.length ≤ 2)) = some true := by
  obtain ⟨o, ho, hl1, hl2⟩ :=
    C3_bounded_invocations llmConst parseNone 2 cStBase cInpBase nodeInputs_cStBase
      (by omega)
  rw [ho]
  simp only [Option.map_some', Option.some_inj, decide_eq_true_eq]
  exact ⟨hl1, hl2⟩

/-- C7: the Context Assembler is deterministic — two states that agree on
the seven keys the node reads (`parent_pool`, `parent_objectives`,
`most_recent`, `all_para`, `bounds`, `budget`, `summary`) produce
byte-identical Instruction and Context text for the first oracle
invocation. -/
theorem C7_deterministic_context (st1 st2 : State)
    (h1 : getKey st1 "parent_pool" = getKey st2 "parent_pool")
    (h2 : getKey st1 "parent_objectives" = getKey st2 "parent_objectives")
    (h3 : getKey st1 "most_recent" = getKey st2 "most_recent")
    (h4 : getKey st1 "all_para" = getKey st2 "all_para")
    (h5 : getKey st1 "bounds" = getKey st2 "bounds")
    (h6 : getKey st1 "budget" = getKey st2 "budget")
    (h7 : getKey st1 "summary" = getKey st2 "summary") :
    nodeInputs st1 = nodeInputs st2
    ∧ (nodeInputs st1).map (fun inp => (mkSystemMessage inp, mkUserMsg inp))
      = (nodeInputs st2).map (fun inp => (mkSystemMessage inp, mkUserMsg inp)) := by
  have he : nodeInputs st1 = nodeInputs st2 := by
    unfold nodeInputs
    rw [h1, h2, h3, h4, h5, h6, h7]
  exact ⟨he, by rw [he]⟩

/-- Witness for C7: two runs on the same concrete state. -/
theorem C7_witness :
    nodeInputs cStBase = nodeInputs cStBase
    ∧ (nodeInputs cStBase).map (fun inp => (mkSystemMessage inp, mkUserMsg inp))
      = (nodeInputs cStBase).map (fun inp => (mkSystemMessage inp, mkUserMsg inp)) :=
  C7_deterministic_context cStBase cStBase rfl rfl rfl rfl rfl rfl rfl

theorem failState_lookup (st : State) (pp : QMat) (r : String) :
    getKey (failState st pp r) "diverse_pool" = some (SVal.mat pp)
    ∧ getKey (failState st pp r) "rationales" = some (SVal.strListv [])
    ∧ getKey (failState st pp r) "diversity_report_raw" = some (SVal.strv r) := by
  unfold failState
  refine ⟨?_, ?_, ?_⟩
  · rw [getKey_setKey_ne _ _ _ _ (by decide), getKey_setKey_ne _ _ _ _ (by decide),
      getKey_setKey_same]
  · rw [getKey_setKey_ne _ _ _ _ (by decide), getKey_setKey_same]
  · rw [getKey_setKey_same]

/-- C6: within one call, every oracle invocation sends the identical
Context (user message), and each invocation after an invalid response sends
the previous Instruction with the corrective warning appended — so every
earlier Instruction is a prefix of every later one. -/
theorem C6_instruction_escalation (llm : Nat → List (String × String) → String)
    (parse : String → Option PyVal) (mr : Nat) (st : State) (inp : NodeInputs)
    (o : NodeOutcome) (hin : nodeInputs st = some inp)
    (ho : nodeRun llm parse mr st = some o) :
    (∀ a ∈ o.attempts, a.user = mkUserMsg inp)
    ∧ ∀ i, i + 1 < o.attempts.length →
        (o.attempts.getD (i + 1) defAttempt).sys
          = (o.attempts.getD i defAttempt).sys ++ mkWarning inp.pool_size inp.n_vars := by
  have hatt := (nodeRun_cases llm parse mr st inp o hin ho).1
  rw [hatt]
  simp only [theLoop]
  constructor
  · intro a ha
    exact retryLoop_user_eq llm parse inp.pool_size inp.n_vars (mkUserMsg inp)
      (mkWarning inp.pool_size inp.n_vars) mr 0 (mkSystemMessage inp) "" a ha
  · intro i hi
    exact retryLoop_sys_step llm parse inp.pool_size inp.n_vars (mkUserMsg inp)
      (mkWarning inp.pool_size inp.n_vars) mr 0 (mkSystemMessage inp) "" i hi

/-- Witness for C6: two invocations against an always-unparsable oracle;
the second Instruction is the first plus the warning, the Context is the
assembled user message. -/
theorem C6_witness :
    (nodeRun llmConst parseNone 2 cStBase).map
        (fun o => ((o.attempts.getD 1 defAttempt).sys, (o.attempts.getD 0 defAttempt).user))
      = (nodeRun llmConst parseNone 2 cStBase).map
        (fun o => ((o.attempts.getD 0 defAttempt).sys ++ mkWarning 1 1,
          mkUserMsg cInpBase)) := by
  cases ho : nodeRun llmConst parseNone 2 cStBase with
  | none => rfl
  | some o =>
    have hc := C6_instruction_escalation llmConst parseNone 2 cStBase cInpBase o
      nodeInputs_cStBase ho
    have h2 : (nodeRun llmConst parseNone 2 cStBase).map (fun o => o.attempts.length)
        = some 2 := by decide
    rw [ho] at h2
    simp only [Option.map_some', Option.some_inj] at h2
    have hstep := hc.2 0 (by omega)
    have hmem : o.attempts.getD 0 defAttempt ∈ o.attempts := by
      rw [List.getD_eq_getElem o.attempts defAttempt (by omega)]
      exact List.getElem_mem _
    have huser := hc.1 _ hmem
    simp only [Option.map_some', Option.some_inj, Prod.mk.injEq]
    exact ⟨hstep, huser⟩

/-- C2: against an oracle whose responses always fail validation, the node
performs exactly `max_retries` invocations and returns (without raising)
the fallback state: `diverse_pool` is the unmodified `parent_pool`,
`rationales` is empty, and `diversity_report_raw` is the raw text of the
last invocation. -/
theorem C2_fallback_identity (llm : Nat → List (String × String) → String)
    (parse : String → Option PyVal) (mr : Nat) (st : State) (inp : NodeInputs)
    (hin : nodeInputs st = some inp) (hmr : 1 ≤ mr)
    (hbad : ∀ i msgs, validatedSets parse inp.pool_size inp.n_vars (llm i msgs)
      = Option.none) :
    ∃ o a, nodeRun llm parse mr st = some o
      ∧ o.attempts.length = mr
      ∧ o.attempts.getLast? = some a
      ∧ o.out = some (failState st inp.parent_pool a.raw)
      ∧ ∀ out2, o.out = some out2 →
          getKey out2 "diverse_pool" = some (SVal.mat inp.parent_pool)
          ∧ getKey out2 "rationales" = some (SVal.strListv [])
          ∧ getKey out2 "diversity_report_raw" = some (SVal.strv a.raw) := by
  obtain ⟨hsets, hlen, hrep, hrep0⟩ :=
    retryLoop_allInvalid llm parse inp.pool_size inp.n_vars (mkUserMsg inp)
      (mkWarning inp.pool_size inp.n_vars) hbad mr 0 (mkSystemMessage inp) ""
  have hsets2 : (theLoop llm parse mr inp).sets = Option.none := hsets
  have hlen2 : (theLoop llm parse mr inp).attempts.length = mr := hlen
  obtain ⟨a, ha⟩ : ∃ a, (theLoop llm parse mr inp).attempts.getLast? = some a := by
    cases hL : (theLoop llm parse mr inp).attempts.getLast? with
    | some a => exact ⟨a, rfl⟩
    | none =>
      rw [List.getLast?_eq_none_iff] at hL
      rw [hL] at hlen2
      simp at hlen2
      omega
  have hraw : (theLoop llm parse mr inp).report = a.raw := hrep a ha
  refine ⟨{ out := some (failState st inp.parent_pool (theLoop llm parse mr inp).report),
            attempts := (theLoop llm parse mr inp).attempts, sets := Option.none },
    a, ?_, hlen2, ha, ?_, ?_⟩
  · simp [nodeRun, hin, hsets2]
  · rw [hraw]
  · intro out2 hout2
    simp only [Option.some_inj] at hout2
    rw [← hout2, hraw]
    exact failState_lookup st inp.parent_pool a.raw

/-- Witness for C2: an always-unparsable oracle, `max_retries = 2`. -/
theorem C2_witness :
    (diversity_agent_node llmConst parseNone 2 cStBase).bind
        (fun out => getKey out "diverse_pool") = some (SVal.mat [[1]])
    ∧ (diversity_agent_node llmConst parseNone 2 cStBase).bind
        (fun out => getKey out "rationales") = some (SVal.strListv [])
    ∧ (nodeRun llmConst parseNone 2 cStBase).map (fun o => o.attempts.length)
        = some 2 := by
  obtain ⟨o, a, ho, hlen, hlast, hout, hkeys⟩ :=
    C2_fallback_identity llmConst parseNone 2 cStBase cInpBase nodeInputs_cStBase
      (by omega) (fun i msgs => rfl)
  obtain ⟨h1, h2, h3⟩ := hkeys _ hout
  refine ⟨?_, ?_, ?_⟩
  · simp only [diversity_agent_node, ho, Option.some_bind, hout]
    simpa [cInpBase] using h1
  · simp only [diversity_agent_node, ho, Option.some_bind, hout]
    simpa [cInpBase] using h2
  · rw [ho]
    simp [hlen]

/-- C1: when the first oracle response parses to a list of exactly
`pool_size` dicts, each with a `values` entry of length `n_vars` and a
`rationale` entry, whose entries are numerically coercible, the returned
state's `diverse_pool` is the `pool_size × n_vars` matrix whose row `i` is
the float-coerced `values` of the `i`-th element, in response order. -/
theorem C1_success_shape (llm : Nat → List (String × String) → String)
    (parse : String → Option PyVal) (mr : Nat) (st : State) (inp : NodeInputs)
    (items : List PyVal) (M : QMat)
    (hin : nodeInputs st = some inp) (hmr : 1 ≤ mr)
    (hresp : validatedSets parse inp.pool_size inp.n_vars
        (llm 0 [("system", mkSystemMessage inp), ("user", mkUserMsg inp)]) = some items)
    (hco : mapOpt coerceRow items = some M) :
    ∃ out, diversity_agent_node llm parse mr st = some out
      ∧ getKey out "diverse_pool" = some (SVal.mat M)
      ∧ M.length = inp.pool_size
      ∧ (∀ r ∈ M, r.length = inp.n_vars)
      ∧ ∀ i, i < items.length →
          coerceRow (items.getD i PyVal.noneV) = some (M.getD i []) := by
  obtain ⟨f, rfl⟩ : ∃ f, mr = f + 1 := ⟨mr - 1, by omega⟩
  have hsets : (theLoop llm parse (f + 1) inp).sets = some items := by
    simp only [theLoop, retryLoop, hresp]
  have hvalid := validatedSets_spec parse inp.pool_size inp.n_vars _ items hresp
  refine ⟨setKey st "diverse_pool" (SVal.mat M), ?_, ?_, ?_, ?_, ?_⟩
  · simp only [diversity_agent_node, nodeRun, hin, hsets, hco, Option.some_bind]
  · exact getKey_setKey_same st "diverse_pool" (SVal.mat M)
  · rw [mapOpt_length coerceRow items M hco]
    exact hvalid.1
  · intro r hr
    obtain ⟨it, hit, hcoit⟩ := mapOpt_mem coerceRow items M hco r hr
    exact coerceRow_len it inp.n_vars r (hvalid.2 it hit) hcoit
  · intro i hi
    exact mapOpt_getD coerceRow items M hco PyVal.noneV [] i hi

/-- Witness for C1: a stub answering one good candidate for a 1 × 1
problem. -/
theorem C1_witness :
    (diversity_agent_node llmConst parseGood 1 cStBase).bind
        (fun out => getKey out "diverse_pool") = some (SVal.mat [[3]]) := by
  obtain ⟨out, hout, hdp, _, _, _⟩ :=
    C1_success_shape llmConst parseGood 1 cStBase cInpBase [itemGood] [[3]]
      nodeInputs_cStBase (by omega) rfl rfl
  rw [hout]
  simpa using hdp

/-- C5 (code bug): at a state whose oracle response passes schema
validation but carries a non-numeric `values` entry, the call raises
(the float coercion of line 152 runs outside the try/except), modelled by
`Option.none` — it does not return a state, contradicting the documented
never-raise contract.  The second conjunct shows the response did pass
validation. -/
theorem C5_coercion_raises :
    diversity_agent_node llmConst parseAbc 1 cStBase = Option.none
    ∧ (nodeRun llmConst parseAbc 1 cStBase).map (fun o => o.sets.isSome) = some true := by
  decide

theorem itemOk_iff (it : PyVal) (nv : Nat) :
    itemOk it nv = true ↔
      ∃ kvs, it = PyVal.dict kvs ∧ (dictFind kvs "rationale").isSome = true ∧
        ((∃ xs, dictFind kvs "values" = some (PyVal.list xs) ∧ xs.length = nv)
         ∨ (∃ xs, dictFind kvs "values" = some (PyVal.tuple xs) ∧ xs.length = nv)) := by
  cases it with
  | dict kvs =>
    simp only [itemOk, Bool.and_eq_true, PyVal.dict.injEq]
    cases hf : dictFind kvs "values" with
    | none => simp [hf]
    | some v => cases v <;> simp [hf, beq_iff_eq, And.comm]
  | num q => simp [itemOk]
  | str s => simp [itemOk]
  | boolv b => simp [itemOk]
  | noneV => simp [itemOk]
  | list xs => simp [itemOk]
  | tuple xs => simp [itemOk]

/-- C4 (amended): the Schema Validator accepts a parsed value iff it is a
Python list (a tuple is rejected) of length exactly `pool_size` whose every
element is a dict containing a `rationale` entry and a `values` entry that
is a list or tuple of length exactly `n_vars`.  Numeric coercibility of the
`values` entries is NOT part of the check (see the counterexample). -/
theorem C4_validator_characterization (v : PyVal) (ps nv : Nat) :
    validResponse v ps nv = true ↔ ValidShape v ps nv := by
  cases v with
  | list items =>
    simp only [validResponse, Bool.and_eq_true, List.all_eq_true, beq_iff_eq, ValidShape]
    constructor
    · rintro ⟨hall, hlen⟩
      exact ⟨items, rfl, hlen, fun it hit => (itemOk_iff it nv).mp (hall it hit)⟩
    · rintro ⟨items2, heq, hlen, hall⟩
      have heq2 : items = items2 := by
        injection heq
      subst heq2
      exact ⟨fun it hit => (itemOk_iff it nv).mpr (hall it hit), hlen⟩
  | num q => simp [validResponse, ValidShape]
  | str s => simp [validResponse, ValidShape]
  | boolv b => simp [validResponse, ValidShape]
  | noneV => simp [validResponse, ValidShape]
  | tuple xs => simp [validResponse, ValidShape]
  | dict kvs => simp [validResponse, ValidShape]

/-- Counterexample for C4: (i) a response whose `values` entries are
non-numeric strings of the right arity is accepted — the validator does not
check numeric coercibility; (ii) a tuple of the right shape (a "sequence"
in the claim's words) is rejected — only a Python list is accepted. -/
theorem C4_counterexample :
    validResponse (PyVal.list [itemNC]) 1 2 = true
    ∧ toFloatQ (PyVal.str "abc") = Option.none
    ∧ validResponse (PyVal.tuple [itemGood]) 1 1 = false := by
  decide

/-- Witness for C4: the characterization applied to a concrete accepted
response. -/
theorem C4_witness : validResponse (PyVal.list [itemGood]) 1 1 = true :=
  (C4_validator_characterization (PyVal.list [itemGood]) 1 1).mpr
    ⟨[itemGood], rfl, rfl, fun it hit => by
      rw [List.mem_singleton] at hit
      subst hit
      exact ⟨_, rfl, rfl, Or.inl ⟨[PyVal.num 3], rfl, rfl⟩⟩⟩

theorem diversityReport_getD (m : QMat) (j : Nat) (hj : j < rowLen m) :
    (diversityReport m).getD j 0 = npStd (colOf m j) := by
  unfold diversityReport
  rw [List.getD_eq_getElem _ _ (by simpa using hj)]
  simp

/-- C8 (amended): over a nonempty history window of shape `K × n_vars`,
the DiversityReport has one entry per column, entry `j` being the
POPULATION standard deviation of column `j` (square root of the mean
squared deviation, denominator `K` — `np.std` with its default `ddof = 0`,
not the Bessel-corrected sample standard deviation), and the window is the
last `K = most_recent` rows of the supplied history. -/
theorem C8_population_std (st : State) (inp : NodeInputs) (A : QMat) (k : Int)
    (hin : nodeInputs st = some inp)
    (hmr : getKey st "most_recent" = some (SVal.intv k)) (hk : 1 ≤ k)
    (hap : getKey st "all_para" = some (SVal.mat A)) (_hlen : k.toNat ≤ A.length) :
    inp.all_para = A.drop (A.length - k.toNat)
    ∧ (diversityReport inp.all_para).length = rowLen inp.all_para
    ∧ ∀ j, j < rowLen inp.all_para →
        (diversityReport inp.all_para).getD j 0
          = Real.sqrt ((((colOf inp.all_para j).map
              (fun x => (x - (colOf inp.all_para j).sum
                / ((colOf inp.all_para j).length : Rat)) ^ 2)).sum
              / ((colOf inp.all_para j).length : Rat) : Rat) : Real) := by
  obtain ⟨pp, po, mr, apFull, bnd, bud, su, hpp, hpo, hmr2, hap2, hbnd, hbud, hsu, heq⟩ :=
    nodeInputs_spec st inp hin
  rw [hmr] at hmr2
  simp only [getIntD, Option.some_inj] at hmr2
  subst hmr2
  rw [hap] at hap2
  simp only [getMatD] at hap2
  cases hrect : isRect A with
  | false => rw [hrect] at hap2; simp at hap2
  | true =>
    rw [hrect] at hap2
    simp only [if_true, Option.some_inj] at hap2
    subst hap2
    have hwin : inp.all_para = A.drop (A.length - k.toNat) := by
      rw [heq]
      simp only [sliceFromNeg, if_pos (by omega : (0 : Int) < k)]
    refine ⟨hwin, ?_, ?_⟩
    · unfold diversityReport
      simp
    · intro j hj
      rw [diversityReport_getD inp.all_para j hj]
      unfold npStd popVar
      rfl

/-- Counterexample for C8: over the window `[[0], [2]]` the code's report
entry is `1` (the population standard deviation), while the sample
standard deviation of that column is `√2 ≠ 1`. -/
theorem C8_counterexample :
    diversityReport [[0], [2]] = [1] ∧ sampleStd [0, 2] ≠ 1 := by
  constructor
  · unfold diversityReport
    have h1 : rowLen [[0], [2]] = 1 := rfl
    rw [h1]
    have h2 : colOf [[0], [2]] 0 = [0, 2] := rfl
    have hr : List.range 1 = [0] := rfl
    simp only [hr, List.map_cons, List.map_nil, h2]
    have h3 : popVar [0, 2] = 1 := by
      norm_num [popVar, List.sum_cons, List.sum_nil]
    unfold npStd
    rw [h3]
    norm_num
  · unfold sampleStd sampleVar
    norm_num

/-- Witness for C8 at a concrete state: `most_recent = 1` over the history
`[[0], [2]]` gives the one-row window `[[2]]`. -/
theorem C8_witness :
    cInp8.all_para = [[2]]
    ∧ (diversityReport cInp8.all_para).length = 1
    ∧ (diversityReport cInp8.all_para).getD 0 0
        = Real.sqrt ((((colOf cInp8.all_para 0).map
            (fun x => (x - (colOf cInp8.all_para 0).sum
              / ((colOf cInp8.all_para 0).length : Rat)) ^ 2)).sum
            / ((colOf cInp8.all_para 0).length : Rat) : Rat) : Real) := by
  obtain ⟨h1, h2, h3⟩ :=
    C8_population_std cSt8 cInp8 [[0], [2]] 1 nodeInputs_cSt8 (by decide) (by decide)
      (by decide) (by decide)
  exact ⟨h1, h2, h3 0 (by decide)⟩

theorem failState_frame (st : State) (pp : QMat) (r : String) (k2 : String)
    (h1 : k2 ≠ "diverse_pool") (h2 : k2 ≠ "rationales")
    (h3 : k2 ≠ "diversity_report_raw") :
    getKey (failState st pp r) k2 = getKey st k2 := by
  unfold failState
  rw [getKey_setKey_ne _ _ _ _ h3, getKey_setKey_ne _ _ _ _ h2, getKey_setKey_ne _ _ _ _ h1]

theorem failState_keys (st : State) (pp : QMat) (r : String) (k2 : String)
    (h : k2 ∈ keysOf (failState st pp r)) :
    k2 ∈ keysOf st ∨ k2 = "diverse_pool" ∨ k2 = "rationales"
      ∨ k2 = "diversity_report_raw" := by
  unfold failState at h
  rcases keysOf_setKey _ _ _ _ h with h | h
  · rcases keysOf_setKey _ _ _ _ h with h | h
    · rcases keysOf_setKey _ _ _ _ h with h | h
      · exact Or.inl h
      · exact Or.inr (Or.inl h)
    · exact Or.inr (Or.inr (Or.inl h))
  · exact Or.inr (Or.inr (Or.inr h))

/-- C9 (amended): the returned state is the input state with only the new
keys written: every key other than `diverse_pool`, `rationales` and
`diversity_report_raw` keeps its input value; the success path writes
exactly `diverse_pool` (in particular `rationales` and
`diversity_report_raw` keep their input bindings and no other key
appears); the failure path writes exactly the three keys.  (A key already
present among the written ones is OVERWRITTEN — see the counterexample;
the original claim's "every key present in the input state maps to an
unchanged value" fails for such states.) -/
theorem C9_frame (llm : Nat → List (String × String) → String)
    (parse : String → Option PyVal) (mr : Nat) (st : State) (inp : NodeInputs)
    (o : NodeOutcome) (out : State) (hin : nodeInputs st = some inp)
    (ho : nodeRun llm parse mr st = some o) (hout : o.out = some out) :
    (∀ k2, k2 ≠ "diverse_pool" → k2 ≠ "rationales" → k2 ≠ "diversity_report_raw" →
        getKey out k2 = getKey st k2)
    ∧ (getKey out "diverse_pool").isSome = true
    ∧ (o.sets.isSome = true →
        getKey out "rationales" = getKey st "rationales"
        ∧ getKey out "diversity_report_raw" = getKey st "diversity_report_raw"
        ∧ ∀ k2 ∈ keysOf out, k2 ∈ keysOf st ∨ k2 = "diverse_pool")
    ∧ (o.sets = Option.none →
        getKey out "rationales" = some (SVal.strListv [])
        ∧ (getKey out "diversity_report_raw").isSome = true
        ∧ ∀ k2 ∈ keysOf out, k2 ∈ keysOf st ∨ k2 = "diverse_pool"
            ∨ k2 = "rationales" ∨ k2 = "diversity_report_raw") := by
  obtain ⟨hatt, hsets, hfail, hsucc⟩ := nodeRun_cases llm parse mr st inp o hin ho
  cases hs : (theLoop llm parse mr inp).sets with
  | none =>
    have hofail := hfail hs
    rw [hout] at hofail
    simp only [Option.some_inj] at hofail
    subst hofail
    refine ⟨?_, ?_, ?_, ?_⟩
    · intro k2 h1 h2 h3
      exact failState_frame st inp.parent_pool _ k2 h1 h2 h3
    · rw [(failState_lookup st inp.parent_pool _).1]
      rfl
    · intro hss
      rw [hsets, hs] at hss
      simp at hss
    · intro _
      refine ⟨(failState_lookup st inp.parent_pool _).2.1, ?_, ?_⟩
      · rw [(failState_lookup st inp.parent_pool _).2.2]
        rfl
      · intro k2 hk2
        exact failState_keys st inp.parent_pool _ k2 hk2
  | some items =>
    cases hc : mapOpt coerceRow items with
    | none =>
      have := (hsucc items hs).1 hc
      rw [hout] at this
      simp at this
    | some pool =>
      have hosucc := (hsucc items hs).2 pool hc
      rw [hout] at hosucc
      simp only [Option.some_inj] at hosucc
      subst hosucc
      refine ⟨?_, ?_, ?_, ?_⟩
      · intro k2 h1 _ _
        exact getKey_setKey_ne st "diverse_pool" k2 (SVal.mat pool) h1
      · rw [getKey_setKey_same]
        rfl
      · intro _
        refine ⟨getKey_setKey_ne st _ _ _ (by decide),
          getKey_setKey_ne st _ _ _ (by decide), ?_⟩
        intro k2 hk2
        exact keysOf_setKey st _ k2 _ hk2
      · intro hnone
        rw [hsets, hs] at hnone
        simp at hnone

/-- Counterexample for C9: an input state that already contains a
`diverse_pool` binding does not keep its value on the success path, so
"every key present in the input state maps to an unchanged value in the
output state" fails. -/
theorem C9_counterexample :
    (diversity_agent_node llmConst parseGood 1 cSt9).bind
        (fun out => getKey out "diverse_pool") = some (SVal.mat [[3]])
    ∧ getKey cSt9 "diverse_pool" = some (SVal.mat [[5]]) := by
  decide

/-- Witness for C9: a key not among the written ones (`budget`) keeps its
input value across a successful call. -/
theorem C9_witness :
    (diversity_agent_node llmConst parseGood 1 cSt9w).bind
        (fun out => getKey out "budget") = some (SVal.intv 7) := by
  cases hin : nodeInputs cSt9w with
  | none =>
    have h : (nodeInputs cSt9w).isSome = true := by decide
    rw [hin] at h
    simp at h
  | some inp =>
    cases ho : nodeRun llmConst parseGood 1 cSt9w with
    | none =>
      have h : (nodeRun llmConst parseGood 1 cSt9w).isSome = true := by decide
      rw [ho] at h
      simp at h
    | some o =>
      have hsome : o.out.isSome = true := by
        have h : (nodeRun llmConst parseGood 1 cSt9w).map (fun x => x.out.isSome)
            = some true := by decide
        rw [ho] at h
        simpa using h
      cases hout : o.out with
      | none => rw [hout] at hsome; simp at hsome
      | some out =>
        have hframe := (C9_frame llmConst parseGood 1 cSt9w inp o out hin ho hout).1
          "budget" (by decide) (by decide) (by decide)
        simp only [diversity_agent_node, ho, Option.some_bind, hout]
        rw [hframe]
        decide
